import Mathlib

/-!
Verification development for the in-memory user-directory HTTP service
(`src/server.js`).  The request-handling core is shallowly embedded: JS
strings become `String`, JS body values become `JsValue`, timestamps are
abstracted as naturals (`new Date().toISOString()` instants, ordered as the
ISO strings are), and each Express handler becomes a pure function from the
store (and request data) to a status/body pair and the resulting store.
-/

set_option maxRecDepth 10000

/-- JavaScript whitespace, as matched by `\s` in a JS regular expression and
trimmed by `String.prototype.trim`. -/
def isJsWhitespace (c : Char) : Bool :=
  c.toNat == 0x20 || c.toNat == 0x09 || c.toNat == 0x0a || c.toNat == 0x0d ||
  c.toNat == 0x0b || c.toNat == 0x0c || c.toNat == 0xa0 || c.toNat == 0x1680 ||
  (0x2000 ≤ c.toNat && c.toNat ≤ 0x200a) ||
  c.toNat == 0x2028 || c.toNat == 0x2029 || c.toNat == 0x202f ||
  c.toNat == 0x205f || c.toNat == 0x3000 || c.toNat == 0xfeff

/-- `String.prototype.trim`: strip leading and trailing JS whitespace. -/
def jsTrim (s : String) : String :=
  String.mk (((s.toList.dropWhile isJsWhitespace).reverse.dropWhile isJsWhitespace).reverse)

/-- `String.prototype.toLowerCase` on one character (ASCII range; the emails
and names manipulated by the service are ASCII). -/
def jsCharToLower (c : Char) : Char :=
  if 65 ≤ c.toNat && c.toNat ≤ 90 then Char.ofNat (c.toNat + 32) else c

/-- `String.prototype.toLowerCase`. -/
def jsToLower (s : String) : String :=
  String.mk (s.toList.map jsCharToLower)

/-- Decidable Boolean test that `small` occurs as a prefix of `l`. -/
def listStartsWith : List Char → List Char → Bool
  | [], _ => true
  | _ :: _, [] => false
  | a :: as, b :: bs => a == b && listStartsWith as bs

/-- `String.prototype.includes`, on character lists: does `sub` occur
contiguously inside `l`? -/
def listContainsSub : List Char → List Char → Bool
  | l, sub =>
    listStartsWith sub l ||
      match l with
      | [] => false
      | _ :: t => listContainsSub t sub

/-- `String.prototype.includes`. -/
def strIncludes (s sub : String) : Bool :=
  listContainsSub s.toList sub.toList

/-- A JS character that a part of the email regular expression
`[^\s@]` accepts: neither whitespace nor `@`. -/
def emailCharOk (c : Char) : Bool :=
  !isJsWhitespace c && c != '@'

/-- Split a character list at the first occurrence of `c`, if any. -/
def splitAtChar (c : Char) : List Char → Option (List Char × List Char)
  | [] => none
  | a :: as =>
    if a == c then some ([], as)
    else (splitAtChar c as).map (fun p => (a :: p.1, p.2))

/-- `isValidEmail` from `src/server.js`: the test of the regular expression
`/^[^\s@]+@[^\s@]+\.[^\s@]+$/`.  A string matches iff it splits at its sole
`@` into a nonempty whitespace-free local part and a remainder that is
whitespace-free, `@`-free, and has a dot `.` at some position that is neither
first nor last. -/
def isValidEmail (s : String) : Bool :=
  match splitAtChar '@' s.toList with
  | none => false
  | some (l, r) =>
    !l.isEmpty && l.all emailCharOk && r.all emailCharOk &&
      ((r.drop 1).dropLast.contains '.')

/-- A JSON body value as the handlers can observe it after Express parsing:
absent fields destructure to `undefined`; the claims additionally use
`null`, Booleans, integer numbers and strings. -/
inductive JsValue where
  | undefined
  | null
  | bool (b : Bool)
  | num (n : Int)
  | str (s : String)
deriving Repr, DecidableEq

/-- JS truthiness test, negated: `!v` is `true` exactly on the falsy values
`undefined`, `null`, `false`, `0` and the empty string. -/
def jsFalsy : JsValue → Bool
  | .undefined => true
  | .null => true
  | .bool b => !b
  | .num n => n == 0
  | .str s => s.isEmpty

/-- `v === undefined` test. -/
def isUndef : JsValue → Bool
  | .undefined => true
  | _ => false

/-- JS `String(v)` coercion, as performed by `RegExp.prototype.test` on a
non-string argument. -/
def jsToStr : JsValue → String
  | .undefined => "undefined"
  | .null => "null"
  | .bool true => "true"
  | .bool false => "false"
  | .num n => toString n
  | .str s => s

/-- `isValidEmail` applied to a raw body value (the regex test coerces
non-strings to strings; no such coercion can contain `@`, so only genuine
strings can pass). -/
def isValidEmailJs (v : JsValue) : Bool :=
  isValidEmail (jsToStr v)

/-- `typeof name !== 'string' || name.trim().length < 2`: the name-shape
check shared by the create and update handlers. -/
def nameInvalid : JsValue → Bool
  | .str s => decide ((jsTrim s).length < 2)
  | _ => true

/-- The value of one digit character under the given radix, if it is one. -/
def digitVal (base : Nat) (c : Char) : Option Nat :=
  if '0' ≤ c ∧ c ≤ '9' then some (c.toNat - 48)
  else if base == 16 ∧ 'a' ≤ c ∧ c ≤ 'f' then some (c.toNat - 87)
  else if base == 16 ∧ 'A' ≤ c ∧ c ≤ 'F' then some (c.toNat - 55)
  else none

/-- JS `parseInt(s)` with no radix argument: skip leading whitespace, read an
optional sign, detect an optional `0x`/`0X` hex marker, then parse the
longest run of digits; `none` models the `NaN` result when no digit is
consumed. -/
def parseIntJs (s : String) : Option Int :=
  let cs := s.toList.dropWhile isJsWhitespace
  let sgn : Int := match cs with
    | '-' :: _ => -1
    | _ => 1
  let cs1 := match cs with
    | '-' :: r => r
    | '+' :: r => r
    | _ => cs
  let base : Nat := match cs1 with
    | '0' :: 'x' :: _ => 16
    | '0' :: 'X' :: _ => 16
    | _ => 10
  let cs2 := match cs1 with
    | '0' :: 'x' :: r => r
    | '0' :: 'X' :: r => r
    | _ => cs1
  let ds := cs2.takeWhile (fun c => (digitVal base c).isSome)
  if ds.isEmpty then none
  else some (sgn * (ds.foldl (fun a c => a * base + ((digitVal base c).getD 0)) 0 : Nat))

/-- `parseInt(x) || d`: the defaulting used for the `page` and `limit` query
parameters (`d` is also chosen when the parse result is the falsy `0`; an
absent parameter coerces to `NaN`). -/
def jsParseIntOr (q : Option String) (dflt : Int) : Int :=
  match q with
  | none => dflt
  | some s =>
    match parseIntJs s with
    | none => dflt
    | some n => if n == 0 then dflt else n

/-- Relative index resolution of `Array.prototype.slice`: negative indices
count from the end, and everything is clamped to `[0, len]`. -/
def jsSliceIndex (len : Nat) (i : Int) : Nat :=
  if i < 0 then (max ((len : Int) + i) 0).toNat else min i.toNat len

/-- `Array.prototype.slice(s, e)`. -/
def jsSlice {α : Type} (l : List α) (s e : Int) : List α :=
  (l.take (jsSliceIndex l.length e)).drop (jsSliceIndex l.length s)

/-- `Math.ceil(a / b)` on integer operands with `b ≠ 0` (the one use site
divides by the effective `limit`, which is never `0`). -/
def jsCeilDiv (a b : Int) : Int :=
  if b == 0 then 0 else -((-a).fdiv b)

/-- `Array.prototype.findIndex`, as an optional index. -/
def findIndexJs {α : Type} (p : α → Bool) : List α → Option Nat
  | [] => none
  | a :: as => if p a then some 0 else (findIndexJs p as).map (fun n => n + 1)

/-- A user record of the store.  `updatedAt` is optional because the three
seeded records are created without that field; it first appears on a
successful update. -/
structure User where
  id : Nat
  name : String
  email : String
  createdAt : Nat
  updatedAt : Option Nat
deriving Repr, DecidableEq

/-- The mutable module state: the `users` array and the `nextId` counter. -/
structure Store where
  users : List User
  nextId : Nat
deriving Repr, DecidableEq

/-- The three seeded users (`createdAt` from the module-load instant `t0`;
no `updatedAt` field is assigned to them). -/
def initUsers (t0 : Nat) : List User :=
  [ { id := 1, name := "John Doe", email := "john@example.com", createdAt := t0, updatedAt := none },
    { id := 2, name := "Jane Smith", email := "jane@example.com", createdAt := t0, updatedAt := none },
    { id := 3, name := "Bob Johnson", email := "bob@example.com", createdAt := t0, updatedAt := none } ]

/-- The store as initialised at module load: the seed users and `nextId = 4`. -/
def initStore (t0 : Nat) : Store :=
  { users := initUsers t0, nextId := 4 }

/-- Response bodies of the non-list routes, mirroring the literal
`res.json(...)` object shapes. -/
inductive RespBody where
  | errorMsg (msg : String)
  | validationFailed (msg : String) (nameDetail emailDetail : Option String)
  | userBody (u : User)
  | messageUser (msg : String) (u : User)
  | deletedBody (msg : String) (id : Nat) (name email : String)
deriving Repr, DecidableEq

/-- The `pagination` object of the list-users response. -/
structure Pagination where
  currentPage : Int
  totalPages : Int
  totalUsers : Nat
  hasNext : Bool
  hasPrev : Bool
deriving Repr, DecidableEq

/-- The list-users response body. -/
structure ListResponse where
  users : List User
  pagination : Pagination
deriving Repr, DecidableEq

/-- Query parameters of `GET /api/users` (each a string when supplied). -/
structure ListQuery where
  name : Option String
  email : Option String
  page : Option String
  limit : Option String
deriving Repr, DecidableEq

/-- The filtering stage of the list handler: the name filter is applied when
`req.query.name` is truthy (present and nonempty), then the email filter
likewise; both are case-insensitive substring tests. -/
def filteredUsers (st : Store) (q : ListQuery) : List User :=
  let byName :=
    match q.name with
    | some s =>
      if s.isEmpty then st.users
      else st.users.filter (fun u => strIncludes (jsToLower u.name) (jsToLower s))
    | none => st.users
  match q.email with
  | some s =>
    if s.isEmpty then byName
    else byName.filter (fun u => strIncludes (jsToLower u.email) (jsToLower s))
  | none => byName

/-- `const page = parseInt(req.query.page) || 1`. -/
def effPage (q : ListQuery) : Int :=
  jsParseIntOr q.page 1

/-- `const limit = parseInt(req.query.limit) || 10`. -/
def effLimit (q : ListQuery) : Int :=
  jsParseIntOr q.limit 10

/-- `GET /api/users`: filter, paginate with `slice`, and report metadata. -/
def listUsersHandler (st : Store) (q : ListQuery) : Nat × ListResponse :=
  let filtered := filteredUsers st q
  let page := effPage q
  let limit := effLimit q
  let startIndex := (page - 1) * limit
  let endIndex := startIndex + limit
  let paginated := jsSlice filtered startIndex endIndex
  (200,
   { users := paginated,
     pagination :=
       { currentPage := page,
         totalPages := jsCeilDiv (filtered.length : Int) limit,
         totalUsers := filtered.length,
         hasNext := decide (endIndex < (filtered.length : Int)),
         hasPrev := decide (startIndex > 0) } })

/-- `GET /api/users/:id`. -/
def getUserHandler (st : Store) (idParam : String) : Nat × RespBody :=
  match parseIntJs idParam with
  | none => (400, .errorMsg "Invalid user ID format")
  | some userId =>
    match st.users.find? (fun u => (u.id : Int) == userId) with
    | none => (404, .errorMsg "User not found")
    | some u => (200, .userBody u)

/-- `POST /api/users`.  Returns the response and the store after the request.
The two `new Date().toISOString()` calls of the success path are represented
by the single request instant `now`. -/
def createUserHandler (st : Store) (name email : JsValue) (now : Nat) :
    (Nat × RespBody) × Store :=
  if jsFalsy name || jsFalsy email then
    ((400, .validationFailed "Validation failed"
        (if jsFalsy name then some "Name is required" else none)
        (if jsFalsy email then some "Email is required" else none)), st)
  else if nameInvalid name then
    ((400, .errorMsg "Name must be a string with at least 2 characters"), st)
  else if !isValidEmailJs email then
    ((400, .errorMsg "Please provide a valid email address"), st)
  else
    match st.users.find? (fun u => jsToLower u.email == jsToLower (jsToStr email)) with
    | some _ => ((409, .errorMsg "User with this email already exists"), st)
    | none =>
      let newUser : User :=
        { id := st.nextId,
          name := jsTrim (jsToStr name),
          email := jsTrim (jsToLower (jsToStr email)),
          createdAt := now,
          updatedAt := some now }
      ((201, .messageUser "User created successfully" newUser),
       { users := st.users ++ [newUser], nextId := st.nextId + 1 })

/-- The field-mutation block of the update handler (`src/server.js` lines
229-237): assign `name.trim()` when `name` was provided, `email` lowercased
and trimmed when provided, and always refresh `updatedAt`. -/
def applyUpdate (old : User) (name email : JsValue) (now : Nat) : User :=
  let u1 := if isUndef name then old else { old with name := jsTrim (jsToStr name) }
  let u2 := if isUndef email then u1 else { u1 with email := jsTrim (jsToLower (jsToStr email)) }
  { u2 with updatedAt := some now }

/-- `PUT /api/users/:id`.  Validation order: id parse, lookup, name shape,
email shape, duplicate email excluding the target; then the in-place field
mutation.  Non-string `name`/`email` values never reach `.trim()` or
`.toLowerCase()` because the shape checks reject them first, so the `jsToStr`
coercions below are exercised only on strings, where they are the identity. -/
def updateUserHandler (st : Store) (idParam : String) (name email : JsValue)
    (now : Nat) : (Nat × RespBody) × Store :=
  match parseIntJs idParam with
  | none => ((400, .errorMsg "Invalid user ID format"), st)
  | some userId =>
    match findIndexJs (fun u => (u.id : Int) == userId) st.users with
    | none => ((404, .errorMsg "User not found"), st)
    | some userIndex =>
      if !isUndef name && nameInvalid name then
        ((400, .errorMsg "Name must be a string with at least 2 characters"), st)
      else if !isUndef email && !isValidEmailJs email then
        ((400, .errorMsg "Please provide a valid email address"), st)
      else if !isUndef email &&
          (st.users.find? (fun u =>
            jsToLower u.email == jsToLower (jsToStr email) && (u.id : Int) != userId)).isSome then
        ((409, .errorMsg "Another user with this email already exists"), st)
      else
        match st.users[userIndex]? with
        | none => ((404, .errorMsg "User not found"), st)
        | some old =>
          ((200, .messageUser "User updated successfully" (applyUpdate old name email now)),
           { users := st.users.set userIndex (applyUpdate old name email now),
             nextId := st.nextId })

/-- `DELETE /api/users/:id`. -/
def deleteUserHandler (st : Store) (idParam : String) : (Nat × RespBody) × Store :=
  match parseIntJs idParam with
  | none => ((400, .errorMsg "Invalid user ID format"), st)
  | some userId =>
    match findIndexJs (fun u => (u.id : Int) == userId) st.users with
    | none => ((404, .errorMsg "User not found"), st)
    | some userIndex =>
      match st.users[userIndex]? with
      | none => ((404, .errorMsg "User not found"), st)
      | some deletedUser =>
        ((200, .deletedBody "User deleted successfully"
            deletedUser.id deletedUser.name deletedUser.email),
         { users := st.users.eraseIdx userIndex, nextId := st.nextId })

/-- One mutating request, with its request instant where the handler reads
the clock (the delete handler does not). -/
inductive Op where
  | create (name email : JsValue) (now : Nat)
  | update (idParam : String) (name email : JsValue) (now : Nat)
  | delete (idParam : String)
deriving Repr, DecidableEq

/-- The store transition of one request. -/
def stepOp (st : Store) : Op → Store
  | .create nm e now => (createUserHandler st nm e now).2
  | .update idp nm e now => (updateUserHandler st idp nm e now).2
  | .delete idp => (deleteUserHandler st idp).2

/-- The store reached from module load (at instant `t0`) after a sequence of
mutating requests. -/
def runOps (t0 : Nat) (ops : List Op) : Store :=
  ops.foldl stepOp (initStore t0)

/-- The request instants are non-decreasing along the sequence, starting no
earlier than `t`. -/
def opsClockOk : Nat → List Op → Bool
  | _, [] => true
  | t, .create _ _ now :: r => decide (t ≤ now) && opsClockOk now r
  | t, .update _ _ _ now :: r => decide (t ≤ now) && opsClockOk now r
  | t, .delete _ :: r => opsClockOk t r

/-- The callable value used by the handlers' catch blocks: the Express
response method `res.status`. -/
inductive JsFun where
  | resStatus
deriving Repr, DecidableEq

/-- Own-property access on a function value: a plain JS function object has
no `status` property, so such an access yields `undefined` (`none`). -/
def funProp : JsFun → String → Option JsFun
  | .resStatus, _ => none

/-- Calling a possibly-undefined callee with the argument `500` and then
`.json`-ing a generic message; calling `undefined` raises a `TypeError`
instead of producing a response. -/
def callStatus500 : Option JsFun → Except String (Nat × String)
  | some .resStatus => .ok (500, "Internal server error")
  | none => .error "TypeError: res.status.status is not a function"

/-- The catch block of the create handler (`src/server.js` line 181):
`res.status(500).json({ error: ... })`. -/
def postCatchBlock : Except String (Nat × String) :=
  callStatus500 (some .resStatus)

/-- The catch block of the update handler (`src/server.js` line 246):
`res.status.status(500).json({ error: ... })` — a property access on the
function value `res.status`, followed by a call of the result. -/
def putCatchBlock : Except String (Nat × String) :=
  callStatus500 (funProp .resStatus "status")

/-- The store invariant: ids are pairwise distinct, every live id is below
the `nextId` counter, and emails are pairwise distinct after lowercasing. -/
def StoreInv (st : Store) : Prop :=
  st.users.Pairwise (fun a b => a.id ≠ b.id) ∧
  (∀ u ∈ st.users, u.id < st.nextId) ∧
  st.users.Pairwise (fun a b => jsToLower a.email ≠ jsToLower b.email)

/-- Timestamp invariant relative to the current clock value `t`: every
user's `createdAt` is in the past, and so is its `updatedAt` whenever that
field exists, in which case it is no earlier than `createdAt`. -/
def TimeInv (t : Nat) (st : Store) : Prop :=
  ∀ u ∈ st.users, u.createdAt ≤ t ∧
    ∀ m, u.updatedAt = some m → u.createdAt ≤ m ∧ m ≤ t

/-! ### Helper lemmas about the embedded string primitives -/

lemma jsCharToLower_idem (c : Char) :
    jsCharToLower (jsCharToLower c) = jsCharToLower c := by
  unfold jsCharToLower
  by_cases h : (65 ≤ c.toNat && c.toNat ≤ 90) = true
  · rw [if_pos h]
    simp only [Bool.and_eq_true, decide_eq_true_eq] at h
    obtain ⟨h1, h2⟩ := h
    set n := c.toNat with hn
    interval_cases n <;> decide
  · rw [if_neg h, if_neg h]

lemma isJsWhitespace_jsCharToLower (c : Char) :
    isJsWhitespace (jsCharToLower c) = isJsWhitespace c := by
  unfold jsCharToLower isJsWhitespace
  by_cases h : (65 ≤ c.toNat && c.toNat ≤ 90) = true
  · rw [if_pos h]
    simp only [Bool.and_eq_true, decide_eq_true_eq] at h
    obtain ⟨h1, h2⟩ := h
    set n := c.toNat with hn
    interval_cases n <;> decide
  · rw [if_neg h]

lemma toList_mk (l : List Char) : (String.mk l).toList = l := rfl

lemma jsToLower_idem (s : String) : jsToLower (jsToLower s) = jsToLower s := by
  unfold jsToLower
  rw [toList_mk, List.map_map]
  exact congrArg String.mk (List.map_congr_left (fun a _ => jsCharToLower_idem a))

lemma dropWhileNone {p : Char → Bool} {l : List Char}
    (h : ∀ c ∈ l, p c = false) : l.dropWhile p = l := by
  cases l with
  | nil => rfl
  | cons x xs =>
    rw [List.dropWhile_cons, if_neg]
    simp [h x (by simp)]

lemma jsTrim_eq_self {s : String} (h : ∀ c ∈ s.toList, isJsWhitespace c = false) :
    jsTrim s = s := by
  unfold jsTrim
  rw [dropWhileNone h, dropWhileNone (fun c hc => h c (List.mem_reverse.mp hc)),
    List.reverse_reverse]
  rfl

lemma mem_toList_jsToLower {s : String} {c : Char} (h : c ∈ (jsToLower s).toList) :
    ∃ d ∈ s.toList, c = jsCharToLower d := by
  rw [jsToLower, toList_mk] at h
  obtain ⟨d, hd, rfl⟩ := List.mem_map.mp h
  exact ⟨d, hd, rfl⟩

lemma splitAtChar_eq {c : Char} : ∀ {l a b : List Char},
    splitAtChar c l = some (a, b) → l = a ++ c :: b := by
  intro l
  induction l with
  | nil => intro a b h; simp [splitAtChar] at h
  | cons x xs ih =>
    intro a b h
    rw [splitAtChar] at h
    by_cases hx : (x == c) = true
    · rw [if_pos hx] at h
      obtain ⟨rfl, rfl⟩ := by simpa using h
      simp [beq_iff_eq.mp hx]
    · rw [if_neg hx] at h
      cases hsp : splitAtChar c xs with
      | none => rw [hsp] at h; simp at h
      | some p =>
        rw [hsp] at h
        obtain ⟨rfl, rfl⟩ : x :: p.1 = a ∧ p.2 = b := by simpa using h
        have := ih (a := p.1) (b := p.2) (by rw [hsp])
        simp [this]

lemma isValidEmail_no_ws {s : String} (h : isValidEmail s = true) :
    ∀ c ∈ s.toList, isJsWhitespace c = false := by
  intro c hc
  rw [isValidEmail] at h
  cases hsp : splitAtChar '@' s.toList with
  | none => rw [hsp] at h; simp at h
  | some p =>
    rw [hsp] at h
    obtain ⟨⟨⟨_, hl⟩, hr⟩, _⟩ := by simpa [Bool.and_eq_true] using h
    have hs := splitAtChar_eq hsp
    rw [hs] at hc
    rcases List.mem_append.mp hc with hcl | hcr
    · have := hl c hcl
      simp only [emailCharOk, Bool.and_eq_true, Bool.not_eq_true'] at this
      exact this.1
    · rcases List.mem_cons.mp hcr with rfl | hcr'
      · decide
      · have := hr c hcr'
        simp only [emailCharOk, Bool.and_eq_true, Bool.not_eq_true'] at this
        exact this.1

lemma isValidEmail_ne_empty {s : String} (h : isValidEmail s = true) : s ≠ "" := by
  intro hs
  subst hs
  simp [isValidEmail, splitAtChar] at h

lemma jsToLower_no_ws {s : String} (h : ∀ c ∈ s.toList, isJsWhitespace c = false) :
    ∀ c ∈ (jsToLower s).toList, isJsWhitespace c = false := by
  intro c hc
  obtain ⟨d, hd, rfl⟩ := mem_toList_jsToLower hc
  rw [isJsWhitespace_jsCharToLower]
  exact h d hd

lemma jsTrim_jsToLower_valid {s : String} (h : isValidEmail s = true) :
    jsTrim (jsToLower s) = jsToLower s :=
  jsTrim_eq_self (jsToLower_no_ws (isValidEmail_no_ws h))

lemma jsToLower_jsTrim_jsToLower_valid {s : String} (h : isValidEmail s = true) :
    jsToLower (jsTrim (jsToLower s)) = jsToLower s := by
  rw [jsTrim_jsToLower_valid h, jsToLower_idem]

lemma findIndexJs_some {α : Type} {p : α → Bool} :
    ∀ {l : List α} {i : Nat}, findIndexJs p l = some i →
      ∃ a, l[i]? = some a ∧ p a = true := by
  intro l
  induction l with
  | nil => intro i h; simp [findIndexJs] at h
  | cons x xs ih =>
    intro i h
    rw [findIndexJs] at h
    by_cases hx : p x = true
    · rw [if_pos hx] at h
      obtain rfl : (0 : Nat) = i := by simpa using h
      exact ⟨x, by simp, hx⟩
    · rw [if_neg hx] at h
      cases hfi : findIndexJs p xs with
      | none => rw [hfi] at h; simp at h
      | some j =>
        rw [hfi] at h
        obtain rfl : j + 1 = i := by simpa using h
        obtain ⟨a, ha, hpa⟩ := ih hfi
        exact ⟨a, by simpa using ha, hpa⟩

lemma pairwise_ne_set {α β : Type} {f : α → β} {l : List α} {i : Nat} {a : α}
    (hp : l.Pairwise (fun x y => f x ≠ f y))
    (ha : ∀ j (hj : j < l.length), j ≠ i → f (l[j]) ≠ f a) :
    (l.set i a).Pairwise (fun x y => f x ≠ f y) := by
  rw [List.pairwise_iff_getElem] at hp ⊢
  intro j k hj hk hjk
  simp only [List.length_set] at hj hk
  rw [List.getElem_set, List.getElem_set]
  by_cases hji : i = j
  · subst hji
    rw [if_pos rfl, if_neg (Nat.ne_of_lt hjk)]
    exact (ha k hk (Nat.ne_of_gt hjk)).symm
  · rw [if_neg hji]
    by_cases hki : i = k
    · subst hki
      rw [if_pos rfl]
      exact ha j hj (fun hc => hji hc.symm)
    · rw [if_neg hki]
      exact hp j k hj hk hjk

lemma pairwise_ne_getElem {α β : Type} {f : α → β} {l : List α}
    (hp : l.Pairwise (fun x y => f x ≠ f y)) {i j : Nat}
    (hi : i < l.length) (hj : j < l.length) (hne : i ≠ j) :
    f (l[i]) ≠ f (l[j]) := by
  rcases Nat.lt_or_ge i j with hlt | hge
  · exact List.pairwise_iff_getElem.mp hp i j hi hj hlt
  · have h2 : j < i := Nat.lt_of_le_of_ne hge (fun hc => hne hc.symm)
    exact (List.pairwise_iff_getElem.mp hp j i hj hi h2).symm

/-! ### Field lemmas for the update handler's mutation block -/

lemma applyUpdate_id (old : User) (nm e : JsValue) (now : Nat) :
    (applyUpdate old nm e now).id = old.id := by
  unfold applyUpdate
  by_cases h1 : isUndef nm = true <;> by_cases h2 : isUndef e = true <;> simp [h1, h2]

lemma applyUpdate_createdAt (old : User) (nm e : JsValue) (now : Nat) :
    (applyUpdate old nm e now).createdAt = old.createdAt := by
  unfold applyUpdate
  by_cases h1 : isUndef nm = true <;> by_cases h2 : isUndef e = true <;> simp [h1, h2]

lemma applyUpdate_updatedAt (old : User) (nm e : JsValue) (now : Nat) :
    (applyUpdate old nm e now).updatedAt = some now := by
  unfold applyUpdate
  by_cases h1 : isUndef nm = true <;> by_cases h2 : isUndef e = true <;> simp [h1, h2]

lemma applyUpdate_name_undef (old : User) (nm e : JsValue) (now : Nat)
    (h : isUndef nm = true) : (applyUpdate old nm e now).name = old.name := by
  unfold applyUpdate
  by_cases h2 : isUndef e = true <;> simp [h, h2]

lemma applyUpdate_name_def (old : User) (nm e : JsValue) (now : Nat)
    (h : isUndef nm = false) :
    (applyUpdate old nm e now).name = jsTrim (jsToStr nm) := by
  unfold applyUpdate
  by_cases h2 : isUndef e = true <;> simp [h, h2]

lemma applyUpdate_email_undef (old : User) (nm e : JsValue) (now : Nat)
    (h : isUndef e = true) : (applyUpdate old nm e now).email = old.email := by
  unfold applyUpdate
  by_cases h1 : isUndef nm = true <;> simp [h, h1]

lemma applyUpdate_email_def (old : User) (nm e : JsValue) (now : Nat)
    (h : isUndef e = false) :
    (applyUpdate old nm e now).email = jsTrim (jsToLower (jsToStr e)) := by
  unfold applyUpdate
  by_cases h1 : isUndef nm = true <;> simp [h, h1]

/-! ### Preservation of the store invariant by each mutating handler -/

lemma storeInv_create (st : Store) (nm e : JsValue) (now : Nat) (h : StoreInv st) :
    StoreInv (createUserHandler st nm e now).2 := by
  unfold createUserHandler
  split
  · exact h
  · split
    · exact h
    · split
      · exact h
      · split
        · exact h
        · rename_i hvalid x hfind
          dsimp only
          have hval : isValidEmailJs e = true := by simpa using hvalid
          have hnows : ∀ u ∈ st.users, jsToLower u.email ≠ jsToLower (jsToStr e) := by
            intro u hu
            have := List.find?_eq_none.mp hfind u hu
            simpa [beq_iff_eq] using this
          unfold StoreInv at h ⊢
          obtain ⟨hids, hlt, hem⟩ := h
          have hemail_new : jsToLower (jsTrim (jsToLower (jsToStr e))) = jsToLower (jsToStr e) :=
            jsToLower_jsTrim_jsToLower_valid hval
          refine ⟨?_, ?_, ?_⟩
          · rw [List.pairwise_append]
            refine ⟨hids, List.pairwise_singleton _ _, fun a ha b hb => ?_⟩
            obtain rfl := List.mem_singleton.mp hb
            exact Nat.ne_of_lt (hlt a ha)
          · intro u hu
            rcases List.mem_append.mp hu with h1 | h2
            · exact Nat.lt_succ_of_lt (hlt u h1)
            · obtain rfl := List.mem_singleton.mp h2
              exact Nat.lt_succ_self _
          · rw [List.pairwise_append]
            refine ⟨hem, List.pairwise_singleton _ _, fun a ha b hb => ?_⟩
            obtain rfl := List.mem_singleton.mp hb
            show jsToLower a.email ≠ jsToLower (jsTrim (jsToLower (jsToStr e)))
            rw [hemail_new]
            exact hnows a ha

lemma storeInv_update (st : Store) (idp : String) (nm e : JsValue) (now : Nat)
    (h : StoreInv st) : StoreInv (updateUserHandler st idp nm e now).2 := by
  unfold updateUserHandler
  split
  · exact h
  · rename_i x1 userId hparse
    split
    · exact h
    · rename_i x2 userIndex hfidx
      split
      · exact h
      · split
        · exact h
        · rename_i he1
          split
          · exact h
          · rename_i he2
            split
            · exact h
            · rename_i x3 old hold
              dsimp only
              have hpid : ((old.id : Int) == userId) = true := by
                obtain ⟨a, hget2, hpa⟩ := findIndexJs_some hfidx
                rw [hold] at hget2
                obtain rfl := Option.some.inj hget2
                exact hpa
              obtain ⟨hlen, hget⟩ := List.getElem?_eq_some.mp hold
              have hmem : old ∈ st.users := List.getElem?_mem hold
              obtain ⟨hids, hlt, hem⟩ := h
              have hidOld : (old.id : Int) = userId := by
                simpa [beq_iff_eq] using hpid
              refine ⟨?_, ?_, ?_⟩
              · refine pairwise_ne_set hids ?_
                intro j hj hne
                rw [applyUpdate_id]
                have hthis := pairwise_ne_getElem hids hj hlen hne
                rw [hget] at hthis
                exact hthis
              · intro u hu
                rcases List.mem_or_eq_of_mem_set hu with h1 | rfl
                · exact hlt u h1
                · rw [applyUpdate_id]
                  exact hlt old hmem
              · by_cases hue : isUndef e = true
                · refine pairwise_ne_set hem ?_
                  intro j hj hne
                  rw [applyUpdate_email_undef _ _ _ _ hue]
                  have hthis := pairwise_ne_getElem hem hj hlen hne
                  rw [hget] at hthis
                  exact hthis
                · have hue' : isUndef e = false := by simpa using hue
                  have hvem : isValidEmailJs e = true := by
                    simpa [hue'] using he1
                  have hfind : (st.users.find? (fun u =>
                      jsToLower u.email == jsToLower (jsToStr e) && (u.id : Int) != userId)) = none := by
                    rw [← Option.not_isSome_iff_eq_none]
                    simpa [hue'] using he2
                  refine pairwise_ne_set hem ?_
                  intro j hj hne
                  rw [applyUpdate_email_def _ _ _ _ hue']
                  have hnp := List.find?_eq_none.mp hfind _ (List.getElem_mem hj)
                  have hidj : (st.users[j].id : Int) ≠ userId := by
                    rw [← hidOld]
                    have hthis := pairwise_ne_getElem hids hj hlen hne
                    rw [hget] at hthis
                    exact_mod_cast hthis
                  have hnem : jsToLower (st.users[j]).email ≠ jsToLower (jsToStr e) := by
                    intro hcontr
                    apply hnp
                    simp [hcontr, bne_iff_ne, hidj]
                  rw [jsToLower_jsTrim_jsToLower_valid hvem]
                  exact hnem

lemma storeInv_delete (st : Store) (idp : String) (h : StoreInv st) :
    StoreInv (deleteUserHandler st idp).2 := by
  unfold deleteUserHandler
  split
  · exact h
  · rename_i x1 userId hparse
    split
    · exact h
    · rename_i x2 userIndex hfidx
      split
      · exact h
      · rename_i x3 del hdel
        dsimp only
        obtain ⟨hids, hlt, hem⟩ := h
        have hsub := List.eraseIdx_sublist st.users userIndex
        exact ⟨hids.sublist hsub, fun u hu => hlt u (hsub.subset hu), hem.sublist hsub⟩

lemma storeInv_stepOp (st : Store) (op : Op) (h : StoreInv st) :
    StoreInv (stepOp st op) := by
  cases op with
  | create nm e now => exact storeInv_create st nm e now h
  | update idp nm e now => exact storeInv_update st idp nm e now h
  | delete idp => exact storeInv_delete st idp h

lemma storeInv_foldl : ∀ (ops : List Op) (st : Store), StoreInv st →
    StoreInv (ops.foldl stepOp st) := by
  intro ops
  induction ops with
  | nil => exact fun st h => h
  | cons op rest ih => exact fun st h => ih _ (storeInv_stepOp st op h)

lemma storeInv_init (t0 : Nat) : StoreInv (initStore t0) := by
  refine ⟨?_, ?_, ?_⟩
  · simp [initStore, initUsers, List.pairwise_cons]
  · intro u hu
    simp only [initStore, initUsers, List.mem_cons, List.not_mem_nil, or_false] at hu
    rcases hu with rfl | rfl | rfl <;> simp [initStore]
  · simp only [initStore, initUsers, List.pairwise_cons, List.mem_cons]
    refine ⟨?_, ?_, ?_⟩
    · intro b hb
      rcases hb with rfl | rfl | hb
      · show jsToLower "john@example.com" ≠ jsToLower "jane@example.com"
        decide
      · show jsToLower "john@example.com" ≠ jsToLower "bob@example.com"
        decide
      · simp at hb
    · intro b hb
      rcases hb with rfl | hb
      · show jsToLower "jane@example.com" ≠ jsToLower "bob@example.com"
        decide
      · simp at hb
    · simp

lemma storeInv_run (t0 : Nat) (ops : List Op) : StoreInv (runOps t0 ops) :=
  storeInv_foldl ops (initStore t0) (storeInv_init t0)

/-! ### Monotonicity of the id counter and the timestamp invariant -/

lemma nextId_stepOp (st : Store) (op : Op) : st.nextId ≤ (stepOp st op).nextId := by
  cases op with
  | create nm e now =>
    show st.nextId ≤ (createUserHandler st nm e now).2.nextId
    unfold createUserHandler
    split
    · exact Nat.le_refl _
    · split
      · exact Nat.le_refl _
      · split
        · exact Nat.le_refl _
        · split
          · exact Nat.le_refl _
          · exact Nat.le_succ _
  | update idp nm e now =>
    show st.nextId ≤ (updateUserHandler st idp nm e now).2.nextId
    unfold updateUserHandler
    split
    · exact Nat.le_refl _
    · split
      · exact Nat.le_refl _
      · split
        · exact Nat.le_refl _
        · split
          · exact Nat.le_refl _
          · split
            · exact Nat.le_refl _
            · split
              · exact Nat.le_refl _
              · exact Nat.le_refl _
  | delete idp =>
    show st.nextId ≤ (deleteUserHandler st idp).2.nextId
    unfold deleteUserHandler
    split
    · exact Nat.le_refl _
    · split
      · exact Nat.le_refl _
      · split
        · exact Nat.le_refl _
        · exact Nat.le_refl _

lemma nextId_foldl : ∀ (ops : List Op) (st : Store),
    st.nextId ≤ (ops.foldl stepOp st).nextId := by
  intro ops
  induction ops with
  | nil => exact fun st => Nat.le_refl _
  | cons op rest ih =>
    intro st
    rw [List.foldl_cons]
    exact Nat.le_trans (nextId_stepOp st op) (ih (stepOp st op))

lemma timeInv_mono {t t' : Nat} (h : t ≤ t') {st : Store} (hi : TimeInv t st) :
    TimeInv t' st := by
  intro u hu
  obtain ⟨h1, h2⟩ := hi u hu
  exact ⟨Nat.le_trans h1 h, fun m hm => ⟨(h2 m hm).1, Nat.le_trans (h2 m hm).2 h⟩⟩

lemma timeInv_init (t0 : Nat) : TimeInv t0 (initStore t0) := by
  intro u hu
  simp only [initStore, initUsers, List.mem_cons, List.not_mem_nil, or_false] at hu
  rcases hu with rfl | rfl | rfl <;>
    exact ⟨Nat.le_refl _, fun m hm => by simp at hm⟩

lemma timeInv_create {t : Nat} {st : Store} (nm e : JsValue) {now : Nat}
    (ht : t ≤ now) (hi : TimeInv t st) :
    TimeInv now (createUserHandler st nm e now).2 := by
  have hi' := timeInv_mono ht hi
  unfold createUserHandler
  split
  · exact hi'
  · split
    · exact hi'
    · split
      · exact hi'
      · split
        · exact hi'
        · dsimp only
          intro u hu
          rcases List.mem_append.mp hu with h1 | h2
          · exact hi' u h1
          · obtain rfl := List.mem_singleton.mp h2
            refine ⟨Nat.le_refl _, fun m hm => ?_⟩
            obtain rfl : now = m := by simpa using hm
            exact ⟨Nat.le_refl _, Nat.le_refl _⟩

lemma timeInv_update {t : Nat} {st : Store} (idp : String) (nm e : JsValue) {now : Nat}
    (ht : t ≤ now) (hi : TimeInv t st) :
    TimeInv now (updateUserHandler st idp nm e now).2 := by
  have hi' := timeInv_mono ht hi
  unfold updateUserHandler
  split
  · exact hi'
  · split
    · exact hi'
    · split
      · exact hi'
      · split
        · exact hi'
        · split
          · exact hi'
          · split
            · exact hi'
            · rename_i x3 old hold
              dsimp only
              intro u hu
              rcases List.mem_or_eq_of_mem_set hu with h1 | rfl
              · exact hi' u h1
              · have hmem := List.getElem?_mem hold
                obtain ⟨hc, _⟩ := hi old hmem
                refine ⟨?_, ?_⟩
                · rw [applyUpdate_createdAt]
                  exact Nat.le_trans hc ht
                · intro m hm
                  rw [applyUpdate_updatedAt] at hm
                  obtain rfl := Option.some.inj hm
                  rw [applyUpdate_createdAt]
                  exact ⟨Nat.le_trans hc ht, Nat.le_refl _⟩

lemma timeInv_delete {t : Nat} {st : Store} (idp : String) (hi : TimeInv t st) :
    TimeInv t (deleteUserHandler st idp).2 := by
  unfold deleteUserHandler
  split
  · exact hi
  · split
    · exact hi
    · split
      · exact hi
      · rename_i x3 del hdel
        dsimp only
        intro u hu
        exact hi u ((List.eraseIdx_sublist _ _).subset hu)

lemma timeInv_foldl : ∀ (ops : List Op) (t : Nat) (st : Store), TimeInv t st →
    opsClockOk t ops = true → ∃ t', t ≤ t' ∧ TimeInv t' (ops.foldl stepOp st) := by
  intro ops
  induction ops with
  | nil => exact fun t st hi _ => ⟨t, Nat.le_refl _, hi⟩
  | cons op rest ih =>
    intro t st hi hck
    rw [List.foldl_cons]
    cases op with
    | create nm e now =>
      rw [opsClockOk, Bool.and_eq_true, decide_eq_true_eq] at hck
      obtain ⟨ht, hck'⟩ := hck
      obtain ⟨t', ht', hti⟩ := ih now _ (timeInv_create nm e ht hi) hck'
      exact ⟨t', Nat.le_trans ht ht', hti⟩
    | update idp nm e now =>
      rw [opsClockOk, Bool.and_eq_true, decide_eq_true_eq] at hck
      obtain ⟨ht, hck'⟩ := hck
      obtain ⟨t', ht', hti⟩ := ih now _ (timeInv_update idp nm e ht hi) hck'
      exact ⟨t', Nat.le_trans ht ht', hti⟩
    | delete idp =>
      rw [opsClockOk] at hck
      exact ih t _ (timeInv_delete idp hi) hck

lemma ne_empty_of_jsTrim_len {s : String} (h : 2 ≤ (jsTrim s).length) : s ≠ "" := by
  intro hs
  subst hs
  have h0 : (jsTrim "").length = 0 := by decide
  omega

lemma jsFalsy_str_false {s : String} (h : s ≠ "") : jsFalsy (.str s) = false := by
  show s.isEmpty = false
  rw [Bool.eq_false_iff]
  intro hc
  exact h ((String.isEmpty_iff s).mp hc)

lemma createUserHandler_valid {st : Store} {ns es : String} {now : Nat}
    (hname : 2 ≤ (jsTrim ns).length)
    (hvalid : isValidEmail es = true)
    (hdup : ∀ u ∈ st.users, jsToLower u.email ≠ jsToLower es) :
    createUserHandler st (.str ns) (.str es) now =
      ((201, .messageUser "User created successfully"
          { id := st.nextId, name := jsTrim ns, email := jsTrim (jsToLower es),
            createdAt := now, updatedAt := some now }),
       { users := st.users ++
           [{ id := st.nextId, name := jsTrim ns, email := jsTrim (jsToLower es),
              createdAt := now, updatedAt := some now }],
         nextId := st.nextId + 1 }) := by
  have hns : ns ≠ "" := ne_empty_of_jsTrim_len hname
  have hes : es ≠ "" := isValidEmail_ne_empty hvalid
  have hfind : st.users.find?
      (fun u => jsToLower u.email == jsToLower es) = none := by
    rw [List.find?_eq_none]
    intro u hu
    simpa [beq_iff_eq] using hdup u hu
  have h1 : (jsFalsy (.str ns) || jsFalsy (.str es)) = false := by
    rw [jsFalsy_str_false hns, jsFalsy_str_false hes]
    rfl
  have h2 : nameInvalid (.str ns) = false := by
    simp only [nameInvalid, decide_eq_false_iff_not]
    omega
  have h3 : isValidEmailJs (.str es) = true := hvalid
  unfold createUserHandler
  simp only [h1, h2, h3, hfind, Bool.false_eq_true, if_false, Bool.not_true,
    Bool.not_false, if_true, jsToStr]

/-! ### Claim C4: successful creation -/

/-- C4: for every create request whose name has trimmed length at least 2 and
whose email matches the pattern and collides (case-insensitively) with no
existing user's email, the handler returns 201 with a record whose email is
the input lowercased and trimmed, whose id is the next counter value — never
an id held by any user of any earlier state of the run — whose `createdAt`
and `updatedAt` both equal the creation instant, and which is appended at
the end of the collection. -/
theorem C4_create_success (t0 : Nat) (ops : List Op) (ns es : String) (now : Nat)
    (hname : 2 ≤ (jsTrim ns).length)
    (hvalid : isValidEmail es = true)
    (hdup : ∀ u ∈ (runOps t0 ops).users, jsToLower u.email ≠ jsToLower es) :
    createUserHandler (runOps t0 ops) (.str ns) (.str es) now =
      ((201, .messageUser "User created successfully"
          { id := (runOps t0 ops).nextId, name := jsTrim ns,
            email := jsTrim (jsToLower es), createdAt := now, updatedAt := some now }),
       { users := (runOps t0 ops).users ++
           [{ id := (runOps t0 ops).nextId, name := jsTrim ns,
              email := jsTrim (jsToLower es), createdAt := now, updatedAt := some now }],
         nextId := (runOps t0 ops).nextId + 1 }) ∧
    (∀ pre suf, ops = pre ++ suf → ∀ u ∈ (runOps t0 pre).users,
        u.id ≠ (runOps t0 ops).nextId) := by
  constructor
  · exact createUserHandler_valid hname hvalid hdup
  · intro pre suf hsplit u hu
    have h1 : u.id < (runOps t0 pre).nextId := (storeInv_run t0 pre).2.1 u hu
    have h2 : (runOps t0 pre).nextId ≤ (runOps t0 ops).nextId := by
      rw [hsplit]
      unfold runOps
      rw [List.foldl_append]
      exact nextId_foldl suf _
    omega

/-- Witness for C4 at a concrete input. -/
theorem C4_witness :
    createUserHandler (runOps 0 []) (.str "Alice") (.str "alice@example.com") 7 =
      ((201, .messageUser "User created successfully"
          { id := 4, name := "Alice", email := "alice@example.com",
            createdAt := 7, updatedAt := some 7 }),
       { users := initUsers 0 ++
           [{ id := 4, name := "Alice", email := "alice@example.com",
              createdAt := 7, updatedAt := some 7 }],
         nextId := 5 }) :=
  (C4_create_success 0 [] "Alice" "alice@example.com" 7 (by decide) (by decide)
    (by decide)).1

lemma updateUserHandler_success {st : Store} {idp : String} {nm e : JsValue} {now : Nat}
    {uid : Int} {i : Nat} {old : User}
    (hparse : parseIntJs idp = some uid)
    (hfidx : findIndexJs (fun u => (u.id : Int) == uid) st.users = some i)
    (hold : st.users[i]? = some old)
    (hnm : isUndef nm = true ∨ nameInvalid nm = false)
    (hem : isUndef e = true ∨ (isValidEmailJs e = true ∧
      (st.users.find? (fun u =>
        jsToLower u.email == jsToLower (jsToStr e) && (u.id : Int) != uid)) = none)) :
    updateUserHandler st idp nm e now =
      ((200, .messageUser "User updated successfully" (applyUpdate old nm e now)),
       { users := st.users.set i (applyUpdate old nm e now), nextId := st.nextId }) := by
  have hc1 : (!isUndef nm && nameInvalid nm) = false := by
    rcases hnm with h | h <;> simp [h]
  have hc2 : (!isUndef e && !isValidEmailJs e) = false := by
    rcases hem with h | ⟨h, _⟩ <;> simp [h]
  have hc3 : (!isUndef e && (st.users.find? (fun u =>
      jsToLower u.email == jsToLower (jsToStr e) && (u.id : Int) != uid)).isSome) = false := by
    rcases hem with h | ⟨_, h⟩ <;> simp [h]
  unfold updateUserHandler
  simp only [hparse, hfidx, hold, hc1, hc2, hc3, Bool.false_eq_true, if_false]

/-! ### Claim C6: the frame property of successful updates -/

/-- C6: a successful update changes only the provided fields plus
`updatedAt`: an absent name leaves the stored name unchanged, an absent
email leaves the stored email unchanged, `id` and `createdAt` are never
modified, `updatedAt` is refreshed to the request instant, and every other
position of the collection is untouched. -/
theorem C6_update_frame (st : Store) (idp : String) (nm e : JsValue) (now : Nat)
    (uid : Int) (i : Nat) (old : User)
    (hparse : parseIntJs idp = some uid)
    (hfidx : findIndexJs (fun u => (u.id : Int) == uid) st.users = some i)
    (hold : st.users[i]? = some old)
    (hnm : isUndef nm = true ∨ nameInvalid nm = false)
    (hem : isUndef e = true ∨ (isValidEmailJs e = true ∧
      (st.users.find? (fun u =>
        jsToLower u.email == jsToLower (jsToStr e) && (u.id : Int) != uid)) = none)) :
    updateUserHandler st idp nm e now =
      ((200, .messageUser "User updated successfully" (applyUpdate old nm e now)),
       { users := st.users.set i (applyUpdate old nm e now), nextId := st.nextId }) ∧
    (applyUpdate old nm e now).id = old.id ∧
    (applyUpdate old nm e now).createdAt = old.createdAt ∧
    (applyUpdate old nm e now).updatedAt = some now ∧
    (isUndef nm = true → (applyUpdate old nm e now).name = old.name) ∧
    (isUndef e = true → (applyUpdate old nm e now).email = old.email) ∧
    (∀ j, j ≠ i → (st.users.set i (applyUpdate old nm e now))[j]? = st.users[j]?) :=
  ⟨updateUserHandler_success hparse hfidx hold hnm hem,
   applyUpdate_id old nm e now,
   applyUpdate_createdAt old nm e now,
   applyUpdate_updatedAt old nm e now,
   fun h => applyUpdate_name_undef old nm e now h,
   fun h => applyUpdate_email_undef old nm e now h,
   fun _j hj => List.getElem?_set_ne (Ne.symm hj)⟩

/-- Witness for C6: the spec scenario `PUT users/2 {name:"Only Name Updated"}`. -/
theorem C6_witness :
    updateUserHandler (initStore 0) "2" (.str "Only Name Updated") .undefined 9 =
      ((200, .messageUser "User updated successfully"
          { id := 2, name := "Only Name Updated", email := "jane@example.com",
            createdAt := 0, updatedAt := some 9 }),
       { users :=
           [{ id := 1, name := "John Doe", email := "john@example.com",
              createdAt := 0, updatedAt := none },
            { id := 2, name := "Only Name Updated", email := "jane@example.com",
              createdAt := 0, updatedAt := some 9 },
            { id := 3, name := "Bob Johnson", email := "bob@example.com",
              createdAt := 0, updatedAt := none }],
         nextId := 4 }) := by
  have h := C6_update_frame (initStore 0) "2" (.str "Only Name Updated") .undefined 9
    2 1 { id := 2, name := "Jane Smith", email := "jane@example.com",
          createdAt := 0, updatedAt := none }
    (by decide) (by decide) (by decide) (Or.inr (by decide)) (Or.inl rfl)
  rw [h.1]
  decide

/-! ### Claim C5: email uniqueness -/

/-- C5: case-insensitive email uniqueness. -/
theorem C5_email_uniqueness :
    (∀ t0 ops, (runOps t0 ops).users.Pairwise
        (fun a b => jsToLower a.email ≠ jsToLower b.email)) ∧
    (∀ (st : Store) (nm e : JsValue) (now : Nat),
      jsFalsy nm = false → jsFalsy e = false →
      nameInvalid nm = false → isValidEmailJs e = true →
      (∃ u ∈ st.users, jsToLower u.email = jsToLower (jsToStr e)) →
      createUserHandler st nm e now =
        ((409, .errorMsg "User with this email already exists"), st)) ∧
    (∀ (st : Store) (idp : String) (nm e : JsValue) (now : Nat) (uid : Int) (i : Nat),
      parseIntJs idp = some uid →
      findIndexJs (fun u => (u.id : Int) == uid) st.users = some i →
      (isUndef nm = true ∨ nameInvalid nm = false) →
      isUndef e = false → isValidEmailJs e = true →
      (∃ u ∈ st.users, jsToLower u.email = jsToLower (jsToStr e) ∧ (u.id : Int) ≠ uid) →
      updateUserHandler st idp nm e now =
        ((409, .errorMsg "Another user with this email already exists"), st)) := by
  refine ⟨fun t0 ops => (storeInv_run t0 ops).2.2, ?_, ?_⟩
  · intro st nm e now h1 h2 h3 h4 hex
    have hor : (jsFalsy nm || jsFalsy e) = false := by rw [h1, h2]; rfl
    have hsome : (st.users.find? (fun u =>
        jsToLower u.email == jsToLower (jsToStr e))).isSome = true := by
      rw [List.find?_isSome]
      obtain ⟨u, hu, he⟩ := hex
      exact ⟨u, hu, by simp [he]⟩
    obtain ⟨v, hv⟩ := Option.isSome_iff_exists.mp hsome
    unfold createUserHandler
    simp only [hor, h3, h4, hv, Bool.false_eq_true, if_false, Bool.not_true, if_true]
  · intro st idp nm e now uid i hparse hfidx hnm hue hval hex
    have hc1 : (!isUndef nm && nameInvalid nm) = false := by
      rcases hnm with h | h <;> simp [h]
    have hc2 : (!isUndef e && !isValidEmailJs e) = false := by
      simp [hval]
    have hsome : (st.users.find? (fun u =>
        jsToLower u.email == jsToLower (jsToStr e) && (u.id : Int) != uid)).isSome = true := by
      rw [List.find?_isSome]
      obtain ⟨u, hu, he, hid⟩ := hex
      exact ⟨u, hu, by simp [he, bne_iff_ne, hid]⟩
    have hc3 : (!isUndef e && (st.users.find? (fun u =>
        jsToLower u.email == jsToLower (jsToStr e) && (u.id : Int) != uid)).isSome) = true := by
      rw [hue, hsome]
      rfl
    unfold updateUserHandler
    simp only [hparse, hfidx, hc1, hc2, hc3, Bool.false_eq_true, if_false, if_true]

/-- Witness for C5 at concrete inputs. -/
theorem C5_witness :
    (runOps 0 []).users.Pairwise (fun a b => jsToLower a.email ≠ jsToLower b.email) ∧
    createUserHandler (initStore 0) (.str "Dup") (.str "JOHN@example.com") 7 =
      ((409, .errorMsg "User with this email already exists"), initStore 0) ∧
    updateUserHandler (initStore 0) "2" .undefined (.str "JOHN@example.com") 9 =
      ((409, .errorMsg "Another user with this email already exists"), initStore 0) := by
  refine ⟨C5_email_uniqueness.1 0 [], ?_, ?_⟩
  · exact C5_email_uniqueness.2.1 (initStore 0) (.str "Dup") (.str "JOHN@example.com") 7
      (by decide) (by decide) (by decide) (by decide) (by decide)
  · exact C5_email_uniqueness.2.2 (initStore 0) "2" .undefined (.str "JOHN@example.com") 9
      2 1 (by decide) (by decide) (Or.inl rfl) (by decide) (by decide) (by decide)

/-! ### Claim C1: malformed ids -/

/-- C1 counterexample: the path id `"2abc"` is not a base-10 integer, yet the
get handler answers 200 with user 2 (since `parseInt` accepts the longest
digit run), not 400 as the claim states. -/
theorem C1_counterexample :
    getUserHandler (initStore 0) "2abc" =
      (200, .userBody
        { id := 2, name := "Jane Smith", email := "jane@example.com",
          createdAt := 0, updatedAt := none }) := by
  decide

/-- For the amended C1 the converse direction needs that a successfully
parsed id never produces the malformed-id response; these lemmas check every
branch of each handler against that response. -/
lemma getUserHandler_some_ne {st : Store} {idp : String} {n : Int}
    (hp : parseIntJs idp = some n) :
    getUserHandler st idp ≠ (400, .errorMsg "Invalid user ID format") := by
  unfold getUserHandler
  split
  · rename_i heq
    rw [hp] at heq
    exact Option.noConfusion heq
  · split
    · simp
    · simp

lemma updateUserHandler_some_ne {st : Store} {idp : String} {nm e : JsValue}
    {now : Nat} {n : Int} (hp : parseIntJs idp = some n) :
    updateUserHandler st idp nm e now ≠
      ((400, .errorMsg "Invalid user ID format"), st) := by
  unfold updateUserHandler
  split
  · rename_i heq
    rw [hp] at heq
    exact Option.noConfusion heq
  · split
    · simp
    · split
      · simp
      · split
        · simp
        · split
          · simp
          · split
            · simp
            · simp

lemma deleteUserHandler_some_ne {st : Store} {idp : String} {n : Int}
    (hp : parseIntJs idp = some n) :
    deleteUserHandler st idp ≠ ((400, .errorMsg "Invalid user ID format"), st) := by
  unfold deleteUserHandler
  split
  · rename_i heq
    rw [hp] at heq
    exact Option.noConfusion heq
  · split
    · simp
    · split
      · simp
      · simp

/-- C1 (amended): the get, update and delete handlers answer 400
`Invalid user ID format` — never 404 — exactly when `parseInt` yields `NaN`
on the path id; when the id has a parsable integer prefix (such as `"2abc"`,
parsed as 2, or `"1.5"`, parsed as 1) the handlers instead treat the id as
that integer: get answers 200 with the user of that id or else 404, delete
removes that user or answers 404, and update proceeds with that integer id
(404 when no user carries it). -/
theorem C1_malformed_id_amended (st : Store) (idp : String) (nm e : JsValue)
    (now : Nat) :
    (getUserHandler st idp = (400, .errorMsg "Invalid user ID format") ↔
      parseIntJs idp = none) ∧
    (updateUserHandler st idp nm e now =
        ((400, .errorMsg "Invalid user ID format"), st) ↔ parseIntJs idp = none) ∧
    (deleteUserHandler st idp = ((400, .errorMsg "Invalid user ID format"), st) ↔
      parseIntJs idp = none) ∧
    (∀ n : Int, parseIntJs idp = some n →
      getUserHandler st idp =
        (match st.users.find? (fun u => (u.id : Int) == n) with
         | none => (404, .errorMsg "User not found")
         | some u => (200, .userBody u)) ∧
      deleteUserHandler st idp =
        (match findIndexJs (fun u => (u.id : Int) == n) st.users with
         | none => ((404, .errorMsg "User not found"), st)
         | some i =>
           match st.users[i]? with
           | none => ((404, .errorMsg "User not found"), st)
           | some d =>
             ((200, .deletedBody "User deleted successfully" d.id d.name d.email),
              { users := st.users.eraseIdx i, nextId := st.nextId })) ∧
      (findIndexJs (fun u => (u.id : Int) == n) st.users = none →
        updateUserHandler st idp nm e now = ((404, .errorMsg "User not found"), st))) := by
  cases hp : parseIntJs idp with
  | none =>
    have hg : getUserHandler st idp = (400, .errorMsg "Invalid user ID format") := by
      unfold getUserHandler
      rw [hp]
    have hu : updateUserHandler st idp nm e now =
        ((400, .errorMsg "Invalid user ID format"), st) := by
      unfold updateUserHandler
      rw [hp]
    have hd : deleteUserHandler st idp =
        ((400, .errorMsg "Invalid user ID format"), st) := by
      unfold deleteUserHandler
      rw [hp]
    refine ⟨iff_of_true hg rfl, iff_of_true hu rfl, iff_of_true hd rfl, ?_⟩
    intro n hn
    exact Option.noConfusion hn
  | some n0 =>
    have hne : ¬(some n0 = none) := by simp
    refine ⟨iff_of_false (getUserHandler_some_ne hp) hne,
      iff_of_false (updateUserHandler_some_ne hp) hne,
      iff_of_false (deleteUserHandler_some_ne hp) hne, ?_⟩
    intro n hn
    obtain rfl := Option.some.inj hn
    refine ⟨?_, ?_, ?_⟩
    · unfold getUserHandler
      rw [hp]
    · unfold deleteUserHandler
      rw [hp]
    · intro hfi
      unfold updateUserHandler
      simp only [hp, hfi]

/-- Witness for C1: `"invalid"` parses to `NaN` and receives 400 from all
three handlers; `"1.5"` parses to the integer 1 and is answered 200 with
user 1; `"999"` parses but matches no user and is answered 404, not 400. -/
theorem C1_witness :
    getUserHandler (initStore 0) "invalid" = (400, .errorMsg "Invalid user ID format") ∧
    updateUserHandler (initStore 0) "invalid" .undefined .undefined 5 =
      ((400, .errorMsg "Invalid user ID format"), initStore 0) ∧
    deleteUserHandler (initStore 0) "invalid" =
      ((400, .errorMsg "Invalid user ID format"), initStore 0) ∧
    parseIntJs "1.5" = some 1 ∧
    getUserHandler (initStore 0) "1.5" =
      (200, .userBody
        { id := 1, name := "John Doe", email := "john@example.com",
          createdAt := 0, updatedAt := none }) ∧
    getUserHandler (initStore 0) "999" = (404, .errorMsg "User not found") := by
  have hinv := C1_malformed_id_amended (initStore 0) "invalid" .undefined .undefined 5
  have h15 := C1_malformed_id_amended (initStore 0) "1.5" .undefined .undefined 5
  have h999 := C1_malformed_id_amended (initStore 0) "999" .undefined .undefined 5
  refine ⟨hinv.1.mpr (by decide), hinv.2.1.mpr (by decide), hinv.2.2.1.mpr (by decide),
    by decide, ?_, ?_⟩
  · rw [(h15.2.2.2 1 (by decide)).1]
    decide
  · rw [(h999.2.2.2 999 (by decide)).1]
    decide

/-! ### Claim C2: pagination defaulting -/

/-- C2 counterexample: with `page=-1` the effective page is `-1`, not the
claimed default of 1 — the reported `currentPage` is `-1` and the returned
slice is empty instead of the first page. -/
theorem C2_counterexample :
    (listUsersHandler (initStore 0) ⟨none, none, some "-1", none⟩).2.pagination.currentPage
        = -1 ∧
    (listUsersHandler (initStore 0) ⟨none, none, some "-1", none⟩).2.users = [] := by
  constructor
  · decide
  · decide

/-- C2 (amended): the effective page is 1 exactly when the `page` parameter
is absent, unparsable (`parseInt` yields `NaN`) or parses to `0`; any other
parsed integer — positive or negative — is used as supplied.  The same holds
for `limit` with default 10. -/
theorem C2_defaults_amended (st : Store) (q : ListQuery) :
    (listUsersHandler st q).2.pagination.currentPage = effPage q ∧
    (q.page = none → effPage q = 1) ∧
    (∀ s, q.page = some s → parseIntJs s = none → effPage q = 1) ∧
    (∀ s, q.page = some s → parseIntJs s = some 0 → effPage q = 1) ∧
    (∀ s n, q.page = some s → parseIntJs s = some n → n ≠ 0 → effPage q = n) ∧
    (q.limit = none → effLimit q = 10) ∧
    (∀ s, q.limit = some s → parseIntJs s = none → effLimit q = 10) ∧
    (∀ s, q.limit = some s → parseIntJs s = some 0 → effLimit q = 10) ∧
    (∀ s n, q.limit = some s → parseIntJs s = some n → n ≠ 0 → effLimit q = n) := by
  refine ⟨rfl, ?_, ?_, ?_, ?_, ?_, ?_, ?_, ?_⟩
  · intro h
    simp [effPage, jsParseIntOr, h]
  · intro s hs hp
    simp [effPage, jsParseIntOr, hs, hp]
  · intro s hs hp
    simp [effPage, jsParseIntOr, hs, hp]
  · intro s n hs hp hn
    simp [effPage, jsParseIntOr, hs, hp, hn]
  · intro h
    simp [effLimit, jsParseIntOr, h]
  · intro s hs hp
    simp [effLimit, jsParseIntOr, hs, hp]
  · intro s hs hp
    simp [effLimit, jsParseIntOr, hs, hp]
  · intro s n hs hp hn
    simp [effLimit, jsParseIntOr, hs, hp, hn]

/-- Witness for C2 at concrete query parameters `page=3`, `limit=0`. -/
theorem C2_witness :
    (listUsersHandler (initStore 0) ⟨none, none, some "3", some "0"⟩).2.pagination.currentPage
        = 3 ∧
    effLimit ⟨none, none, some "3", some "0"⟩ = 10 := by
  have h := C2_defaults_amended (initStore 0) ⟨none, none, some "3", some "0"⟩
  constructor
  · rw [h.1]
    exact h.2.2.2.2.1 "3" 3 rfl (by decide) (by decide)
  · exact h.2.2.2.2.2.2.2.1 "0" rfl (by decide)

/-! ### Claim C3: the pagination law -/

lemma jsSlice_nonneg {α : Type} (l : List α) (s e : Int) (hs : 0 ≤ s) (hse : s ≤ e) :
    jsSlice l s e = (l.drop s.toNat).take (e.toNat - s.toNat) := by
  unfold jsSlice jsSliceIndex
  rw [if_neg (by omega), if_neg (by omega), List.take_drop]
  have hst : s.toNat + (e.toNat - s.toNat) = e.toNat := by omega
  rw [hst]
  rcases Nat.le_total e.toNat l.length with h1 | h1
  · rw [Nat.min_eq_left h1, Nat.min_eq_left (by omega)]
  · rw [Nat.min_eq_right h1, List.take_length, List.take_of_length_le h1]
    rcases Nat.le_total s.toNat l.length with h2 | h2
    · rw [Nat.min_eq_left h2]
    · rw [Nat.min_eq_right h2, List.drop_eq_nil_of_le (Nat.le_refl _),
        List.drop_eq_nil_of_le h2]

/-- C3 (amended): pagination law for positive effective page and limit. -/
theorem C3_pagination_law_amended (st : Store) (q : ListQuery)
    (hp : 1 ≤ effPage q) (hl : 1 ≤ effLimit q) :
    (listUsersHandler st q).1 = 200 ∧
    (listUsersHandler st q).2.users =
      ((filteredUsers st q).drop ((effPage q - 1) * effLimit q).toNat).take
        (effLimit q).toNat ∧
    ((listUsersHandler st q).2.users.length : Int) ≤ effLimit q ∧
    ((listUsersHandler st q).2.pagination.hasNext = true ↔
      ((effPage q - 1) * effLimit q + effLimit q : Int) <
        ((filteredUsers st q).length : Int)) := by
  have hs0 : 0 ≤ (effPage q - 1) * effLimit q :=
    mul_nonneg (by omega) (by omega)
  have husers : (listUsersHandler st q).2.users =
      jsSlice (filteredUsers st q) ((effPage q - 1) * effLimit q)
        ((effPage q - 1) * effLimit q + effLimit q) := rfl
  have hslice : (listUsersHandler st q).2.users =
      ((filteredUsers st q).drop ((effPage q - 1) * effLimit q).toNat).take
        (effLimit q).toNat := by
    rw [husers, jsSlice_nonneg _ _ _ hs0 (by omega)]
    congr 1
    omega
  refine ⟨rfl, hslice, ?_, ?_⟩
  · have h1 : (listUsersHandler st q).2.users.length ≤ (effLimit q).toNat := by
      rw [hslice]
      exact List.length_take_le _ _
    omega
  · have hnext : (listUsersHandler st q).2.pagination.hasNext =
        decide (((effPage q - 1) * effLimit q + effLimit q : Int) <
          ((filteredUsers st q).length : Int)) := rfl
    rw [hnext, decide_eq_true_eq]

/-- Witness for C3: the spec scenario `page=1&limit=2` over the seeded store. -/
theorem C3_witness :
    (listUsersHandler (initStore 0) ⟨none, none, some "1", some "2"⟩).2.users =
      [{ id := 1, name := "John Doe", email := "john@example.com",
         createdAt := 0, updatedAt := none },
       { id := 2, name := "Jane Smith", email := "jane@example.com",
         createdAt := 0, updatedAt := none }] ∧
    (listUsersHandler (initStore 0) ⟨none, none, some "1", some "2"⟩).2.pagination.hasNext
      = true := by
  have h := C3_pagination_law_amended (initStore 0) ⟨none, none, some "1", some "2"⟩
    (by decide) (by decide)
  constructor
  · rw [h.2.1]
    decide
  · exact h.2.2.2.mpr (by decide)

/-- C3 counterexample: with `limit=-5` the effective limit is `-5`; the
handler still answers 200 with an empty slice, `hasNext = true`, and the
claimed bound `length ≤ limit` is violated (`0 ≤ -5` is false). -/
theorem C3_counterexample :
    (listUsersHandler (initStore 0) ⟨none, none, none, some "-5"⟩).1 = 200 ∧
    (listUsersHandler (initStore 0) ⟨none, none, none, some "-5"⟩).2.users = [] ∧
    effLimit ⟨none, none, none, some "-5"⟩ = -5 ∧
    (listUsersHandler (initStore 0) ⟨none, none, none, some "-5"⟩).2.pagination.hasNext
      = true ∧
    ¬(((listUsersHandler (initStore 0) ⟨none, none, none, some "-5"⟩).2.users.length : Int)
        ≤ effLimit ⟨none, none, none, some "-5"⟩) := by
  refine ⟨by decide, by decide, by decide, by decide, by decide⟩

/-! ### Claim C7: timestamps -/

/-- C7 counterexample: in the initial (reachable) state the seeded user 1
carries no `updatedAt` field at all, so `updatedAt ≥ createdAt` cannot hold
for every user as claimed. -/
theorem C7_counterexample :
    runOps 0 [] = initStore 0 ∧
    ((initStore 0).users.head?).map User.updatedAt = some none := ⟨rfl, rfl⟩

/-- C7 (amended): under a monotone clock, whenever a user of a reachable
state carries an `updatedAt` timestamp it is at least its `createdAt`;
seeded users carry none until their first successful update (users made by
the create handler carry one from the start). -/
theorem C7_updatedAt_invariant_amended (t0 : Nat) (ops : List Op) (u : User) (m : Nat)
    (hck : opsClockOk t0 ops = true)
    (hu : u ∈ (runOps t0 ops).users)
    (hm : u.updatedAt = some m) :
    u.createdAt ≤ m := by
  obtain ⟨t', _, hti⟩ := timeInv_foldl ops t0 (initStore t0) (timeInv_init t0) hck
  exact ((hti u hu).2 m hm).1

/-- Witness for C7 at a concrete run: update user 1 at instant 5. -/
theorem C7_witness :
    { id := 1, name := "Johnny", email := "john@example.com",
      createdAt := 0, updatedAt := some 5 : User }.createdAt ≤ 5 :=
  C7_updatedAt_invariant_amended 0 [.update "1" (.str "Johnny") .undefined 5]
    { id := 1, name := "Johnny", email := "john@example.com",
      createdAt := 0, updatedAt := some 5 } 5
    (by decide) (by decide) rfl

/-! ### Claim C8: name validation and trimming -/

/-- C8 counterexample: the raw name `" A "` has length 3 ≥ 2, but the create
handler rejects it with 400 — validation tests the TRIMMED length, contrary
to the claim that the threshold is checked pre-trim. -/
theorem C8_counterexample :
    createUserHandler (initStore 0) (.str " A ") (.str "new@example.com") 5 =
      ((400, .errorMsg "Name must be a string with at least 2 characters"),
       initStore 0) := by
  decide

/-- C8 (amended): name validation in create and update checks the threshold
of 2 against the trimmed string (so `" A "` is rejected with 400 and no
state change), and a name that passes is persisted in trimmed form. -/
theorem C8_trim_validation_amended :
    (∀ (st : Store) (s : String) (e : JsValue) (now : Nat),
      s ≠ "" → jsFalsy e = false → (jsTrim s).length < 2 →
      createUserHandler st (.str s) e now =
        ((400, .errorMsg "Name must be a string with at least 2 characters"), st)) ∧
    (∀ (st : Store) (idp s : String) (e : JsValue) (now : Nat) (uid : Int) (i : Nat),
      parseIntJs idp = some uid →
      findIndexJs (fun u => (u.id : Int) == uid) st.users = some i →
      (jsTrim s).length < 2 →
      updateUserHandler st idp (.str s) e now =
        ((400, .errorMsg "Name must be a string with at least 2 characters"), st)) ∧
    (∀ (st : Store) (s es : String) (now : Nat),
      2 ≤ (jsTrim s).length → isValidEmail es = true →
      (∀ u ∈ st.users, jsToLower u.email ≠ jsToLower es) →
      ((createUserHandler st (.str s) (.str es) now).2.users.getLast?).map User.name =
        some (jsTrim s)) := by
  refine ⟨?_, ?_, ?_⟩
  · intro st s e now hs he hlen
    have h1 : (jsFalsy (.str s) || jsFalsy e) = false := by
      rw [jsFalsy_str_false hs, he]
      rfl
    have h2 : nameInvalid (.str s) = true := by
      simp [nameInvalid, hlen]
    unfold createUserHandler
    simp only [h1, h2, Bool.false_eq_true, if_false, if_true]
  · intro st idp s e now uid i hparse hfidx hlen
    have h2 : (!isUndef (.str s) && nameInvalid (.str s)) = true := by
      simp [isUndef, nameInvalid, hlen]
    unfold updateUserHandler
    simp only [hparse, hfidx, h2, if_true]
  · intro st s es now hlen hval hdup
    rw [createUserHandler_valid hlen hval hdup]
    simp [List.getLast?_concat]

/-- Witness for C8 at a concrete short-after-trim name. -/
theorem C8_witness :
    createUserHandler (initStore 0) (.str " B ") (.str "b@example.com") 5 =
      ((400, .errorMsg "Name must be a string with at least 2 characters"),
       initStore 0) :=
  C8_trim_validation_amended.1 (initStore 0) " B " (.str "b@example.com") 5
    (by decide) (by decide) (by decide)

/-! ### Claim C9: the update handler's catch block -/

/-- C9 (code bug): the create handler's catch block sends
`res.status(500).json(...)`, but the update handler's catch block evaluates
`res.status.status(500)` (`src/server.js` line 246) — the `status` property
of the function `res.status` is `undefined`, so the call raises a TypeError
instead of producing the claimed 500 response. -/
theorem C9_update_catch_bug :
    postCatchBlock = Except.ok (500, "Internal server error") ∧
    putCatchBlock = Except.error "TypeError: res.status.status is not a function" :=
  ⟨rfl, rfl⟩

/-! ### Claim C10: falsy required fields -/

/-- C10: a create request whose name or email is falsy (empty string, null,
0, false — or absent, i.e. undefined) is answered 400 `Validation failed`
with the per-field required details, the store is unchanged, and the result
is identical to the request with that field absent. -/
theorem C10_falsy_required (st : Store) (nm e : JsValue) (now : Nat)
    (h : jsFalsy nm = true ∨ jsFalsy e = true) :
    createUserHandler st nm e now =
      ((400, .validationFailed "Validation failed"
          (if jsFalsy nm then some "Name is required" else none)
          (if jsFalsy e then some "Email is required" else none)), st) ∧
    createUserHandler st nm e now =
      createUserHandler st (if jsFalsy nm then JsValue.undefined else nm)
        (if jsFalsy e then JsValue.undefined else e) now := by
  have hcond : (jsFalsy nm || jsFalsy e) = true := by
    rcases h with h | h <;> simp [h]
  have heq1 : createUserHandler st nm e now =
      ((400, .validationFailed "Validation failed"
          (if jsFalsy nm then some "Name is required" else none)
          (if jsFalsy e then some "Email is required" else none)), st) := by
    unfold createUserHandler
    simp only [hcond, if_true]
  have hf1 : jsFalsy (if jsFalsy nm then JsValue.undefined else nm) = jsFalsy nm := by
    by_cases hh : jsFalsy nm = true
    · rw [if_pos hh, hh]
      rfl
    · rw [if_neg hh]
  have hf2 : jsFalsy (if jsFalsy e then JsValue.undefined else e) = jsFalsy e := by
    by_cases hh : jsFalsy e = true
    · rw [if_pos hh, hh]
      rfl
    · rw [if_neg hh]
  have hcond2 : (jsFalsy (if jsFalsy nm then JsValue.undefined else nm) ||
      jsFalsy (if jsFalsy e then JsValue.undefined else e)) = true := by
    rw [hf1, hf2]
    exact hcond
  refine ⟨heq1, ?_⟩
  rw [heq1]
  conv_rhs => unfold createUserHandler
  simp only [hcond2, if_true, hf1, hf2, hcond]

/-- Witness for C10 at a concrete falsy name (the empty string). -/
theorem C10_witness :
    createUserHandler (initStore 0) (.str "") (.str "a@b.cd") 3 =
      ((400, .validationFailed "Validation failed" (some "Name is required") none),
       initStore 0) := by
  rw [(C10_falsy_required (initStore 0) (.str "") (.str "a@b.cd") 3
    (Or.inl (by decide))).1]
  decide
